import Mathlib

/-!
Verification of the hsafa gateway event-log and run-lifecycle code.

Shallow embedding of the TypeScript source:
  - `createSmartSpaceMessage` (src/hsafa-gateway/src/lib/smartspace-db.ts):
    the Prisma interactive transaction that reads the maximal `seq` for a
    SmartSpace and inserts the new message with `seq + 1`.  The transaction
    is modelled as one atomic step on the database state; concurrency is
    modelled as an arbitrary serialisation (interleaving) of such atomic
    steps, possibly touching many SmartSpaces.
-/

namespace Hsafa

/-- A row of the `SmartSpaceMessage` table.  String ids are modelled as `Nat`. -/
structure SmartSpaceMessage where
  smartSpaceId : Nat
  entityId : Nat
  role : String
  content : Option String
  seq : Nat
  runId : Option Nat
deriving Repr, DecidableEq

/-- The input record of `createSmartSpaceMessage`. -/
structure MessageInput where
  smartSpaceId : Nat
  entityId : Nat
  role : String
  content : Option String
  runId : Option Nat
deriving Repr, DecidableEq

/-- The rows of the `SmartSpaceMessage` table for one SmartSpace
(`where: \x7b smartSpaceId \x7d`). -/
def msgsFor (db : List SmartSpaceMessage) (sid : Nat) : List SmartSpaceMessage :=
  db.filter (fun m => m.smartSpaceId == sid)

/-- The stored `seq` values for one SmartSpace. -/
def seqsFor (db : List SmartSpaceMessage) (sid : Nat) : List Nat :=
  (msgsFor db sid).map (fun m => m.seq)

/-- Maximum of a list of sequence numbers, `0` when empty: this is
`findFirst(orderBy: seq desc)` followed by `last?.seq ?? 0n`. -/
def lastSeqOf : List Nat → Nat
  | [] => 0
  | x :: xs => Nat.max x (lastSeqOf xs)

/-- `tx.smartSpaceMessage.findFirst(where: smartSpaceId, orderBy: seq desc)`,
defaulted to `0` (`last?.seq ?? 0n`). -/
def lastSeq (db : List SmartSpaceMessage) (sid : Nat) : Nat :=
  lastSeqOf (seqsFor db sid)

/-- `createSmartSpaceMessage` (smartspace-db.ts lines 15–44): inside one
transaction, read the last `seq` of the SmartSpace, compute `nextSeq = last + 1`,
insert the row.  Returns the created row and the new table state. -/
def createSmartSpaceMessage (db : List SmartSpaceMessage) (input : MessageInput) :
    SmartSpaceMessage × List SmartSpaceMessage :=
  let nextSeq := lastSeq db input.smartSpaceId + 1
  let m : SmartSpaceMessage :=
    { smartSpaceId := input.smartSpaceId
      entityId := input.entityId
      role := input.role
      content := input.content
      seq := nextSeq
      runId := input.runId }
  (m, db ++ [m])

/-- A serialised history of appends: each transaction is atomic, so any
concurrent execution of `createSmartSpaceMessage` calls is some list of
inputs applied in sequence. -/
def runAppends (db : List SmartSpaceMessage) (ops : List MessageInput) :
    List SmartSpaceMessage :=
  ops.foldl (fun d op => (createSmartSpaceMessage d op).2) db

/-- The per-scope gapless-sequencing invariant: for every SmartSpace the
stored `seq` values are exactly `1..count`. -/
def seqInvariant (db : List SmartSpaceMessage) : Prop :=
  ∀ sid : Nat, seqsFor db sid = List.range' 1 (msgsFor db sid).length

/-!
`emitSmartSpaceEvent` (src/hsafa-gateway/src/lib/smartspace-events.ts lines
25–62): `redis.incr` on the separate counter key `smartSpace:id:seq`, then
`redis.xadd` into the stream, then `redis.publish` on the notify channel.
The `incr` and the `xadd` are separate Redis commands, not one transaction.
-/

/-- The Redis state touched by `emitSmartSpaceEvent`: per-SmartSpace counter
keys, per-SmartSpace streams (seq and event type of each entry), and the
notify-channel publications. -/
structure RedisEventState where
  counters : Nat → Nat
  streams : Nat → List (Nat × String)
  published : Nat → List (String × Nat)

/-- `emitSmartSpaceEvent`.  `xaddOk` models whether the `redis.xadd` stream
write succeeds; when it fails the function throws
`Failed to write SmartSpace event to Redis stream`, but the `redis.incr` has
already happened.  Returns the result (the emitted seq, or the thrown error)
together with the Redis state after the call. -/
def emitSmartSpaceEvent (xaddOk : Bool) (st : RedisEventState) (smartSpaceId : Nat)
    (type : String) : Except String Nat × RedisEventState :=
  let seq := st.counters smartSpaceId + 1
  let st1 : RedisEventState :=
    { st with counters := fun k => if k = smartSpaceId then seq else st.counters k }
  if xaddOk then
    let st2 : RedisEventState :=
      { st1 with
        streams := fun k =>
          if k = smartSpaceId then st1.streams k ++ [(seq, type)] else st1.streams k
        published := fun k =>
          if k = smartSpaceId then st1.published k ++ [(type, seq)] else st1.published k }
    (Except.ok seq, st2)
  else
    (Except.error "Failed to write SmartSpace event to Redis stream", st1)

/-- An empty Redis state, for concrete evaluation. -/
def redisEmpty : RedisEventState :=
  { counters := fun _ => 0, streams := fun _ => [], published := fun _ => [] }

/-!
Run lifecycle: the cancel route (src/hsafa-gateway/src/routes/runs.ts lines
113–139) and the Agent Trigger Coordinator
(src/hsafa-gateway/src/lib/agent-trigger.ts).
-/

/-- Run status values used by the gateway. -/
inductive RunStatus
  | queued
  | running
  | waitingTool
  | completed
  | failed
  | canceled
deriving Repr, DecidableEq

/-- The terminal check written in the cancel route:
`status === 'completed' || status === 'failed' || status === 'canceled'`. -/
def RunStatus.isTerminal (s : RunStatus) : Bool :=
  s == .completed || s == .failed || s == .canceled

/-- The fields of a `Run` row the cancel route touches. -/
structure Run where
  id : Nat
  smartSpaceId : Nat
  status : RunStatus
  completedAt : Option Nat
deriving Repr, DecidableEq

/-- Events emitted by a handler: run-scope events (`createEmitEvent(runId)` /
`emitEvent`) and SmartSpace-scope events (`emitSmartSpaceEvent`), each
recorded as (scope id, event type). -/
structure EmitLog where
  runScope : List (Nat × String)
  spaceScope : List (Nat × String)
deriving Repr, DecidableEq

/-- The JSON body of the cancel route's success response. -/
structure CancelResponse where
  success : Bool
  status : RunStatus
deriving Repr, DecidableEq

/-- POST /api/runs/:runId/cancel (runs.ts lines 113–139), applied to the run
row it found; `now` models `new Date()`.  Terminal runs: respond success with
the stored status, change nothing, emit nothing.  Otherwise: set status to
`canceled` and `completedAt`, emit one `run.canceled` event into the Run's own
scope (and none into the SmartSpace scope). -/
def cancelRun (run : Run) (now : Nat) : CancelResponse × Run × EmitLog :=
  if run.status = .completed ∨ run.status = .failed ∨ run.status = .canceled then
    ({ success := true, status := run.status }, run,
     { runScope := [], spaceScope := [] })
  else
    ({ success := true, status := .canceled },
     { run with status := .canceled, completedAt := some now },
     { runScope := [(run.id, "run.canceled")], spaceScope := [] })

/-!
Agent Trigger Coordinator (src/hsafa-gateway/src/lib/agent-trigger.ts).
-/

/-- An `Entity` row as joined through `smartSpaceMembership.findMany`. -/
structure Entity where
  id : Nat
  type : String
  agentId : Option Nat
deriving Repr, DecidableEq

/-- A run created by the coordinator: its agent entity and the
`triggerDepth` recorded in its metadata.  (Store-generated run ids are
irrelevant to the claims and are represented by the agent entity id.) -/
structure CreatedRun where
  agentEntityId : Nat
  triggerDepthRecorded : Nat
deriving Repr, DecidableEq

/-- The member filter of the coordinator:
`e.type === 'agent' && e.agentId && e.id !== senderEntityId`. -/
def eligibleAgents (members : List Entity) (senderEntityId : Nat) : List Entity :=
  members.filter (fun e => e.type == "agent" && e.agentId.isSome && e.id != senderEntityId)

/-- `triggerAgentsInSmartSpace` (agent-trigger.ts lines 11–71) in the
failure-free case.  Defaults in the source: `triggerDepth = 0`,
`maxDepth = 5`.  If `triggerDepth >= maxDepth` nothing is created; otherwise
one run per eligible agent member, with `metadata: \x7b triggerDepth:
triggerDepth + 1 \x7d`, each accompanied by one `run.created` event emitted
into the SmartSpace scope (and none into the run scope). -/
def triggerAgentsInSmartSpace (members : List Entity) (senderEntityId : Nat)
    (triggerDepth maxDepth : Nat) : List CreatedRun × EmitLog :=
  if triggerDepth ≥ maxDepth then
    ([], { runScope := [], spaceScope := [] })
  else
    let agents := eligibleAgents members senderEntityId
    (agents.map (fun e => { agentEntityId := e.id, triggerDepthRecorded := triggerDepth + 1 }),
     { runScope := []
       spaceScope := agents.map (fun e => (e.id, "run.created")) })

/-- A mutual-trigger cascade between agents `a` and `b` in one SmartSpace:
the coordinator is first called with sender `b` (so it wakes `a`) at depth
`td`; each created run's output re-invokes the coordinator with the depth
recorded in the run's metadata and with the run's own agent as sender.
`fuel` bounds the unrolling so the definition is total; the claim is that the
chain stops by itself long before any large `fuel`. -/
def mutualTriggerChain (a b : Entity) (td maxDepth fuel : Nat) : List CreatedRun :=
  match fuel with
  | 0 => []
  | fuel + 1 =>
    let rs := (triggerAgentsInSmartSpace [a, b] b.id td maxDepth).1
    match rs with
    | [] => []
    | r :: _ => rs ++ mutualTriggerChain b a r.triggerDepthRecorded maxDepth fuel

/-- One agent member together with the fate of the per-member awaited calls
in the coordinator loop: whether `prisma.run.create` succeeds, and whether
the background `executeRun` promise resolves (its rejection is consumed by
`.catch`). -/
structure AgentOutcome where
  entity : Entity
  createOk : Bool
  startOk : Bool
deriving Repr, DecidableEq

/-- The `for` loop of `triggerAgentsInSmartSpace` with failure injection.
`await prisma.run.create` is not wrapped in try/catch: a rejection aborts the
loop and propagates out of the coordinator (the runs already created stay
created).  `executeRun(run.id).catch(...)` swallows start failures.  Returns
the created runs and the propagated error, if any. -/
def runTriggerLoop (agents : List AgentOutcome) (triggerDepth : Nat) :
    List CreatedRun × Option String :=
  match agents with
  | [] => ([], none)
  | a :: rest =>
    if a.createOk then
      let r : CreatedRun :=
        { agentEntityId := a.entity.id, triggerDepthRecorded := triggerDepth + 1 }
      let tail := runTriggerLoop rest triggerDepth
      (r :: tail.1, tail.2)
    else
      ([], some "run.create failed")

/-- `triggerAgentsInSmartSpace` with failure injection: depth guard, member
filter, then the loop above. -/
def triggerAgentsInSmartSpaceWithOutcomes (members : List AgentOutcome)
    (senderEntityId : Nat) (triggerDepth maxDepth : Nat) :
    List CreatedRun × Option String :=
  if triggerDepth ≥ maxDepth then
    ([], none)
  else
    runTriggerLoop
      (members.filter (fun a =>
        a.entity.type == "agent" && a.entity.agentId.isSome && a.entity.id != senderEntityId))
      triggerDepth

/-!
`submitToolResult` (src/hsafa-gateway/src/lib/tool-results.ts lines 8–138).
Sequential awaited steps against the database, modelled with explicit state
passing; a rejected await is a thrown error, and all state changed by
earlier steps stays changed.
-/

/-- The fields of a `Run` row that `submitToolResult` selects. -/
structure RunRow where
  id : Nat
  smartSpaceId : Nat
  agentEntityId : Nat
  triggeredById : Option Nat
deriving Repr, DecidableEq

/-- A `ToolResult` row, unique per `(runId, callId)`. -/
structure ToolResultRow where
  runId : Nat
  callId : Nat
  result : String
  source : String
  clientId : Option Nat
deriving Repr, DecidableEq

/-- The fields of a `ToolCall` row that `submitToolResult` touches. -/
structure ToolCallRow where
  runId : Nat
  callId : Nat
  toolName : String
  executionTarget : String
  status : String
  completedAt : Option Nat
deriving Repr, DecidableEq

/-- The database and side-effect state `submitToolResult` acts on.
`resumeTriggers` records each background `executeRun(runId)` invocation made
at the end of the function. -/
structure GatewayDb where
  runs : List RunRow
  toolResults : List ToolResultRow
  toolCalls : List ToolCallRow
  messages : List SmartSpaceMessage
  emits : EmitLog
  resumeTriggers : List Nat
deriving Repr, DecidableEq

/-- `prisma.toolResult.upsert(where: runId_callId)`: update the row with the
key if it exists, create it otherwise. -/
def toolResultUpsert (rows : List ToolResultRow) (runId callId : Nat)
    (result src : String) (clientId : Option Nat) : List ToolResultRow :=
  if rows.any (fun t => t.runId == runId && t.callId == callId) then
    rows.map (fun t =>
      if t.runId == runId && t.callId == callId then
        { t with result := result, source := src, clientId := clientId }
      else t)
  else
    rows ++ [{ runId := runId, callId := callId, result := result,
               source := src, clientId := clientId }]

/-- `submitToolResult`.  Steps, in source order: find the run (throw
`Run not found` if absent); upsert the ToolResult; `prisma.toolCall.update`
to `completed` (prisma throws if no row has the key); re-read the tool call;
for a non-`server` execution target append a tool message to the SmartSpace
timeline (via `createSmartSpaceMessage`) and emit a `smartSpace.message`
event; emit `tool.result` and `message.tool` into the run scope and
`tool.result` into the SmartSpace scope; finally, for a non-`server`
execution target, invoke `executeRun(runId)` in the background.  Returns the
state after the call and the thrown error, if any. -/
def submitToolResult (db : GatewayDb) (runId callId : Nat) (result : String)
    (source : Option String) (clientId : Option Nat) (now : Nat) :
    GatewayDb × Option String :=
  match db.runs.find? (fun r => r.id == runId) with
  | none => (db, some "Run not found")
  | some run =>
    let src := source.getD (if clientId.isSome then "client" else "server")
    let db1 : GatewayDb :=
      { db with toolResults := toolResultUpsert db.toolResults runId callId result src clientId }
    if db1.toolCalls.any (fun c => c.runId == runId && c.callId == callId) then
      let db2 : GatewayDb :=
        { db1 with toolCalls := db1.toolCalls.map (fun c =>
            if c.runId == runId && c.callId == callId then
              { c with status := "completed", completedAt := some now }
            else c) }
      let toolCallQ := db2.toolCalls.find? (fun c => c.runId == runId && c.callId == callId)
      let targetNonServer : Bool :=
        match toolCallQ with
        | some tc => tc.executionTarget != "server"
        | none => false
      let db3 : GatewayDb :=
        if targetNonServer then
            { db2 with
              messages := (createSmartSpaceMessage db2.messages
                { smartSpaceId := run.smartSpaceId
                  entityId := run.agentEntityId
                  role := "tool"
                  content := none
                  runId := some runId }).2
              emits := { db2.emits with
                spaceScope := db2.emits.spaceScope ++ [(run.smartSpaceId, "smartSpace.message")] } }
        else db2
      let db4 : GatewayDb :=
        { db3 with emits := { db3.emits with
            runScope := db3.emits.runScope ++ [(runId, "tool.result"), (runId, "message.tool")]
            spaceScope := db3.emits.spaceScope ++ [(run.smartSpaceId, "tool.result")] } }
      if targetNonServer then
        ({ db4 with resumeTriggers := db4.resumeTriggers ++ [runId] }, none)
      else
        (db4, none)
    else
      (db1, some "Record to update not found")

/-!
GET /api/runs/:runId/stream (src/hsafa-gateway/src/routes/runs.ts lines
141–248).  The Redis stream of the run holds entries with monotonically
increasing ids; ids are modelled as `1..n` in publication order.  The route,
for a caller that supplies a cursor (`since = K`): one initial
`redis.xread(STREAMS, key, K)` replay of everything currently in the stream,
then `subscriber.subscribe(notifyChannel)`; afterwards each notification
handler does `redis.xread(STREAMS, key, lastSeenId)` and advances
`lastSeenId`.  Events published after the replay read but before the
subscription completes fire no notification for this subscriber.
-/

/-- `redis.xread(STREAMS, key, after)` against a stream holding ids `1..n`:
the entries with id greater than `after`. -/
def xreadAfter (n after : Nat) : List Nat :=
  (List.range' 1 n).filter (fun i => decide (after < i))

/-- One pending invocation of the `subscriber.on` notification callback of
the stream route.  The callback reads the `lastSeenId` closure variable
synchronously when it is invoked (`cursor`), then awaits
`redis.xread(STREAMS, key, lastSeenId)`; `done` records whether that awaited
read has resolved and its batch been written to the response. -/
structure Handler where
  cursor : Nat
  done : Bool
deriving Repr, DecidableEq

/-- The state of one GET /api/runs/:runId/stream subscriber after its live
subscription became active: the stream length (ids `1..streamLen`), the
`lastSeenId` closure variable, the ids written to the SSE response in order,
and the notification-callback invocations so far, in arrival order. -/
structure SubscriberState where
  streamLen : Nat
  lastSeen : Nat
  delivered : List Nat
  handlers : List Handler
deriving Repr, DecidableEq

/-- The atomic steps of the subscriber's event loop after activation.
`publish` is one `xadd` plus its notification, which invokes the callback:
the callback captures the current `lastSeenId` and issues its `xread`.
`resolve i` is the completion of the `i`-th callback's awaited `xread`
against the stream as it then stands, followed by its synchronous write
loop (there is no await inside the loop, so batch delivery and the
`lastSeenId` updates are one atomic unit).  Because the `xread` is awaited,
other publishes and other callbacks' resolutions can interleave between a
callback's invocation and its resolution. -/
inductive SchedStep
  | publish
  | resolve (i : Nat)
deriving Repr, DecidableEq

/-- One step of the subscriber's event loop (runs.ts lines 197–224). -/
def subStep (st : SubscriberState) : SchedStep → SubscriberState
  | .publish =>
    { st with
      streamLen := st.streamLen + 1
      handlers := st.handlers ++ [{ cursor := st.lastSeen, done := false }] }
  | .resolve i =>
    match st.handlers.get? i with
    | none => st
    | some h =>
      if h.done then st
      else
        let batch := xreadAfter st.streamLen h.cursor
        { st with
          delivered := st.delivered ++ batch
          lastSeen := batch.getLast?.getD st.lastSeen
          handlers := st.handlers.set i { h with done := true } }

/-- Run the subscriber's event loop over a schedule of steps. -/
def runSched (st : SubscriberState) (steps : List SchedStep) : SubscriberState :=
  steps.foldl subStep st

/-- The subscriber state right after connecting with cursor `since = K`:
the stream held `n1` entries when the initial replay `xread` ran (all of
them past `K` were written and `lastSeenId` advanced to the last written
id), and `n2 ≥ n1` entries by the time `subscriber.subscribe` completed —
the entries `n1+1..n2` published in that window fired no notification for
this subscriber, so no handler exists for them. -/
def subscriberAfterConnect (K n1 n2 : Nat) : SubscriberState :=
  let replayed := xreadAfter n1 K
  { streamLen := n2
    lastSeen := replayed.getLast?.getD K
    delivered := replayed
    handlers := [] }

/-- The serialized schedule: `k` publishes, the `i`-th handler's `xread`
resolving before the next publish arrives (`i` counts the handlers already
spawned). -/
def serializedSched (i k : Nat) : List SchedStep :=
  match k with
  | 0 => []
  | k + 1 => .publish :: .resolve i :: serializedSched (i + 1) k

/-!
`dispatchToolCallToClient` (src/unnamed/part_006 lines 136–166): look the
client up in the in-memory `clientConnections` map; when connected, push a
`tool.call.request` over the socket; in every case `redis.xadd` one
`tool.call.request` entry into the durable `client:id:inbox` stream.
-/

/-- A `tool.call.request` message as pushed to a client. -/
structure ToolCallRequest where
  runId : Nat
  callId : Nat
  toolName : String
deriving Repr, DecidableEq

/-- An entry of a client's durable inbox stream. -/
structure InboxEntry where
  type : String
  payload : ToolCallRequest
deriving Repr, DecidableEq

/-- The state `dispatchToolCallToClient` acts on: the keys of the in-memory
`clientConnections` map, the messages pushed over live sockets (client id and
message type), and the per-client durable inbox streams. -/
structure WsGatewayState where
  connections : List Nat
  liveMessages : List (Nat × String)
  inboxes : Nat → List InboxEntry

/-- `dispatchToolCallToClient`. -/
def dispatchToolCallToClient (st : WsGatewayState) (clientId : Nat)
    (toolCall : ToolCallRequest) : WsGatewayState :=
  let st1 : WsGatewayState :=
    if st.connections.contains clientId then
      { st with liveMessages := st.liveMessages ++ [(clientId, "tool.call.request")] }
    else st
  { st1 with inboxes := fun c =>
      if c = clientId then st1.inboxes c ++ [{ type := "tool.call.request", payload := toolCall }]
      else st1.inboxes c }

/-- A one-run database for exercising `submitToolResult`: run 1 in
SmartSpace 2, with one outstanding tool call `(runId 1, callId 5)` whose
execution target is a remote client and whose status is `status0`. -/
def toolDb (status0 : String) : GatewayDb :=
  { runs := [{ id := 1, smartSpaceId := 2, agentEntityId := 3, triggeredById := none }]
    toolResults := []
    toolCalls := [{ runId := 1, callId := 5, toolName := "t",
                    executionTarget := "client", status := status0, completedAt := none }]
    messages := []
    emits := { runScope := [], spaceScope := [] }
    resumeTriggers := [] }

theorem seqsFor_append_eq (db : List SmartSpaceMessage) (m : SmartSpaceMessage)
    (sid : Nat) (h : m.smartSpaceId = sid) :
    seqsFor (db ++ [m]) sid = seqsFor db sid ++ [m.seq] := by
  simp [seqsFor, msgsFor, h]

theorem seqsFor_append_ne (db : List SmartSpaceMessage) (m : SmartSpaceMessage)
    (sid : Nat) (h : ¬ m.smartSpaceId = sid) :
    seqsFor (db ++ [m]) sid = seqsFor db sid := by
  simp [seqsFor, msgsFor, h]

theorem msgsFor_append_eq (db : List SmartSpaceMessage) (m : SmartSpaceMessage)
    (sid : Nat) (h : m.smartSpaceId = sid) :
    msgsFor (db ++ [m]) sid = msgsFor db sid ++ [m] := by
  simp [msgsFor, h]

theorem msgsFor_append_ne (db : List SmartSpaceMessage) (m : SmartSpaceMessage)
    (sid : Nat) (h : ¬ m.smartSpaceId = sid) :
    msgsFor (db ++ [m]) sid = msgsFor db sid := by
  simp [msgsFor, h]

theorem range'_one_concat (n : Nat) :
    List.range' 1 (n + 1) = List.range' 1 n ++ [n + 1] := by
  have h : List.range' 1 (n + 1) = List.range' 1 n ++ [1 + 1 * n] :=
    List.range'_concat 1 n
  rw [h]
  simp [Nat.add_comm]

theorem lastSeqOf_append_single (l : List Nat) (x : Nat) :
    lastSeqOf (l ++ [x]) = Nat.max (lastSeqOf l) x := by
  induction l with
  | nil => simp [lastSeqOf, Nat.max_comm]
  | cons y ys ih =>
    show Nat.max y (lastSeqOf (ys ++ [x])) = Nat.max (Nat.max y (lastSeqOf ys)) x
    rw [ih]
    exact (Nat.max_assoc _ _ _).symm

theorem lastSeqOf_range' (n : Nat) : lastSeqOf (List.range' 1 n) = n := by
  induction n with
  | zero => rfl
  | succ k ih =>
    rw [range'_one_concat, lastSeqOf_append_single, ih]
    simp [Nat.max_def]

theorem createSmartSpaceMessage_preserves (db : List SmartSpaceMessage)
    (input : MessageInput) (hinv : seqInvariant db) :
    seqInvariant (createSmartSpaceMessage db input).2 := by
  intro sid
  have hdb := hinv sid
  have hlast : lastSeq db input.smartSpaceId = (msgsFor db input.smartSpaceId).length := by
    unfold lastSeq
    rw [hinv input.smartSpaceId, lastSeqOf_range']
  simp only [createSmartSpaceMessage]
  by_cases h : input.smartSpaceId = sid
  · subst h
    rw [seqsFor_append_eq _ _ _ rfl, msgsFor_append_eq _ _ _ rfl, hdb]
    simp only [List.length_append, List.length_singleton]
    rw [range'_one_concat, hlast]
  · rw [seqsFor_append_ne _ _ _ h, msgsFor_append_ne _ _ _ h]
    exact hdb

theorem runAppends_preserves (ops : List MessageInput) (db : List SmartSpaceMessage)
    (hinv : seqInvariant db) : seqInvariant (runAppends db ops) := by
  induction ops generalizing db with
  | nil => exact hinv
  | cons op rest ih =>
    simp only [runAppends, List.foldl_cons]
    exact ih _ (createSmartSpaceMessage_preserves db op hinv)

theorem seqInvariant_nil : seqInvariant [] := by
  intro sid
  rfl

/-- **C1**: for every SmartSpace, after any serialisation of any number of
`createSmartSpaceMessage` transactions (each transaction atomically reading
the last `seq` and inserting the row), the stored `seq` values for that
SmartSpace are exactly `1..count`: gapless, and in particular duplicate-free. -/
theorem C1_gapless_sequencing (ops : List MessageInput) (sid : Nat) :
    seqsFor (runAppends [] ops) sid =
      List.range' 1 (msgsFor (runAppends [] ops) sid).length ∧
    (seqsFor (runAppends [] ops) sid).Nodup := by
  have h := runAppends_preserves ops [] seqInvariant_nil sid
  refine ⟨h, ?_⟩
  rw [h]
  exact List.nodup_range' _ _

/-- **C4, counterexample**: starting from an empty Redis state, an
`emitSmartSpaceEvent` whose stream write fails throws — yet the scope's
sequence counter now reads 1, and the next successful emit for the same
SmartSpace receives seq 2, not the seq 1 the failed append would have used. -/
theorem C4_counterexample :
    (emitSmartSpaceEvent false redisEmpty 7 "m").1 =
      Except.error "Failed to write SmartSpace event to Redis stream" ∧
    (emitSmartSpaceEvent false redisEmpty 7 "m").2.counters 7 = 1 ∧
    (emitSmartSpaceEvent true (emitSmartSpaceEvent false redisEmpty 7 "m").2 7 "n").1 =
      Except.ok 2 := by
  refine ⟨rfl, by simp [emitSmartSpaceEvent, redisEmpty], by simp [emitSmartSpaceEvent, redisEmpty]⟩

/-- **C4 (amended)**: if the stream write of a SmartSpace event fails, the
scope's sequence counter has nevertheless already been advanced by the
separate `redis.incr`, the stream gains no entry, and a subsequent successful
`emitSmartSpaceEvent` for the same SmartSpace receives the burned number
plus one — not the number the failed append would have used. -/
theorem C4_failed_write_burns_seq (st : RedisEventState) (sid : Nat) (t1 t2 : String) :
    (emitSmartSpaceEvent false st sid t1).1 =
      Except.error "Failed to write SmartSpace event to Redis stream" ∧
    (emitSmartSpaceEvent false st sid t1).2.counters sid = st.counters sid + 1 ∧
    (emitSmartSpaceEvent false st sid t1).2.streams sid = st.streams sid ∧
    (emitSmartSpaceEvent true (emitSmartSpaceEvent false st sid t1).2 sid t2).1 =
      Except.ok (st.counters sid + 2) := by
  refine ⟨rfl, by simp [emitSmartSpaceEvent], by simp [emitSmartSpaceEvent],
    by simp [emitSmartSpaceEvent]⟩

/-- **C7**: cancel on a run whose status is completed, failed or canceled
responds success with the stored status, returns the run row entirely
unchanged and emits no event; cancel on a run in any other status sets the
status to canceled (and the completion timestamp). -/
theorem C7_cancel_idempotent (run : Run) (now : Nat) :
    ((run.status = .completed ∨ run.status = .failed ∨ run.status = .canceled) →
      (cancelRun run now).1 = { success := true, status := run.status } ∧
      (cancelRun run now).2.1 = run ∧
      (cancelRun run now).2.2 = { runScope := [], spaceScope := [] }) ∧
    (¬ (run.status = .completed ∨ run.status = .failed ∨ run.status = .canceled) →
      (cancelRun run now).2.1.status = .canceled ∧
      (cancelRun run now).2.1.completedAt = some now ∧
      (cancelRun run now).1 = { success := true, status := .canceled }) := by
  constructor
  · intro h
    simp [cancelRun, h]
  · intro h
    simp [cancelRun, h]

theorem C7_cancel_idempotent_witness :
    (cancelRun { id := 1, smartSpaceId := 2, status := .completed, completedAt := some 9 } 5).2.1 =
      { id := 1, smartSpaceId := 2, status := .completed, completedAt := some 9 } ∧
    (cancelRun { id := 1, smartSpaceId := 2, status := .running, completedAt := none } 5).2.1.status =
      .canceled := by
  exact ⟨((C7_cancel_idempotent _ 5).1 (Or.inl rfl)).2.1,
    ((C7_cancel_idempotent _ 5).2 (by decide)).1⟩

/-- **C5, counterexample**: two lifecycle transitions that do not dual-write.
Canceling a running run emits no event into the owning SmartSpace's scope,
and a queued run created by `triggerAgentsInSmartSpace` emits no event into
the run's own scope — in both cases the claim requires exactly one. -/
theorem C5_counterexample :
    (cancelRun { id := 1, smartSpaceId := 2, status := .running, completedAt := none } 3).2.2.spaceScope.length = 0 ∧
    (triggerAgentsInSmartSpace [{ id := 10, type := "agent", agentId := some 4 }] 99 0 5).2.runScope.length = 0 := by
  constructor
  · rfl
  · rfl

/-- **C5 (amended)**: the cancel transition emits exactly one event
(`run.canceled`) into the Run's own scope and none into the SmartSpace's
scope, while each run created by `triggerAgentsInSmartSpace` is announced by
exactly one SmartSpace-scope event (`run.created`, one per created run) and
none into the run's own scope; only these single-scope writes happen, not
the dual write the claim describes. -/
theorem C5_single_scope_emits (run : Run) (now : Nat) (members : List Entity)
    (sender td maxD : Nat) :
    (¬ (run.status = .completed ∨ run.status = .failed ∨ run.status = .canceled) →
      (cancelRun run now).2.2.runScope = [(run.id, "run.canceled")] ∧
      (cancelRun run now).2.2.spaceScope = []) ∧
    (triggerAgentsInSmartSpace members sender td maxD).2.runScope = [] ∧
    (triggerAgentsInSmartSpace members sender td maxD).2.spaceScope.length =
      (triggerAgentsInSmartSpace members sender td maxD).1.length := by
  refine ⟨fun h => by simp [cancelRun, h], ?_, ?_⟩
  · by_cases h : td ≥ maxD
    · simp [triggerAgentsInSmartSpace, h]
    · simp [triggerAgentsInSmartSpace, h]
  · by_cases h : td ≥ maxD
    · simp [triggerAgentsInSmartSpace, h]
    · simp [triggerAgentsInSmartSpace, h]

theorem C5_single_scope_emits_witness :
    (cancelRun { id := 1, smartSpaceId := 2, status := .queued, completedAt := none } 4).2.2.runScope =
      [(1, "run.canceled")] ∧
    (cancelRun { id := 1, smartSpaceId := 2, status := .queued, completedAt := none } 4).2.2.spaceScope = [] := by
  exact (C5_single_scope_emits
    { id := 1, smartSpaceId := 2, status := .queued, completedAt := none } 4 [] 0 0 5).1 (by decide)

theorem eligibleAgents_pair (a b : Entity) (ha : a.type = "agent")
    (ha2 : a.agentId.isSome = true) (hab : a.id ≠ b.id) :
    eligibleAgents [a, b] b.id = [a] := by
  have h3 : (a.id != b.id) = true := by
    simp [bne_iff_ne, hab]
  simp [eligibleAgents, List.filter, ha, ha2, h3]

theorem mutualTriggerChain_le :
    ∀ (fuel : Nat) (a b : Entity) (td maxDepth : Nat),
      a.type = "agent" → a.agentId.isSome = true →
      b.type = "agent" → b.agentId.isSome = true → a.id ≠ b.id →
      (mutualTriggerChain a b td maxDepth fuel).length ≤ maxDepth - td := by
  intro fuel
  induction fuel with
  | zero =>
    intro a b td maxD _ _ _ _ _
    simp [mutualTriggerChain]
  | succ k ih =>
    intro a b td maxD ha ha2 hb hb2 hab
    by_cases h : td ≥ maxD
    · simp [mutualTriggerChain, triggerAgentsInSmartSpace, h]
    · have he := eligibleAgents_pair a b ha ha2 hab
      have hrec := ih b a (td + 1) maxD hb hb2 ha ha2 (Ne.symm hab)
      simp only [mutualTriggerChain, triggerAgentsInSmartSpace, if_neg h, he,
        List.map_cons, List.map_nil, List.cons_append, List.nil_append,
        List.length_cons]
      omega

/-- **C6**: the coordinator creates nothing once `triggerDepth` reaches
`maxDepth`; every run it creates records `triggerDepth + 1` in its metadata;
and a mutual-trigger cycle between two distinct agents, started at depth 0
with the default `maxDepth = 5`, creates at most 5 runs per original trigger
no matter how far it is unrolled. -/
theorem C6_cascade_termination :
    (∀ (members : List Entity) (sender td maxD : Nat), td ≥ maxD →
      (triggerAgentsInSmartSpace members sender td maxD).1 = []) ∧
    (∀ (members : List Entity) (sender td maxD : Nat) (r : CreatedRun),
      r ∈ (triggerAgentsInSmartSpace members sender td maxD).1 →
      r.triggerDepthRecorded = td + 1) ∧
    (∀ (a b : Entity) (fuel : Nat),
      a.type = "agent" → a.agentId.isSome = true →
      b.type = "agent" → b.agentId.isSome = true → a.id ≠ b.id →
      (mutualTriggerChain a b 0 5 fuel).length ≤ 5) := by
  refine ⟨?_, ?_, ?_⟩
  · intro members sender td maxD h
    simp [triggerAgentsInSmartSpace, h]
  · intro members sender td maxD r hr
    by_cases h : td ≥ maxD
    · simp [triggerAgentsInSmartSpace, h] at hr
    · simp only [triggerAgentsInSmartSpace, if_neg h, List.mem_map] at hr
      obtain ⟨e, _, he⟩ := hr
      rw [← he]
  · intro a b fuel ha ha2 hb hb2 hab
    exact mutualTriggerChain_le fuel a b 0 5 ha ha2 hb hb2 hab

theorem C6_cascade_termination_witness :
    (triggerAgentsInSmartSpace [{ id := 10, type := "agent", agentId := some 4 }] 99 5 5).1 = [] ∧
    ({ agentEntityId := 10, triggerDepthRecorded := 1 } : CreatedRun).triggerDepthRecorded = 0 + 1 ∧
    (mutualTriggerChain { id := 1, type := "agent", agentId := some 11 }
      { id := 2, type := "agent", agentId := some 12 } 0 5 10).length ≤ 5 := by
  refine ⟨C6_cascade_termination.1 _ 99 5 5 (le_refl 5), ?_, ?_⟩
  · exact C6_cascade_termination.2.1 [{ id := 10, type := "agent", agentId := some 4 }]
      99 0 5 { agentEntityId := 10, triggerDepthRecorded := 1 } (by decide)
  · exact C6_cascade_termination.2.2 _ _ 10 rfl rfl rfl rfl (by decide)

theorem runTriggerLoop_all_create_ok (td : Nat) :
    ∀ (agents : List AgentOutcome), (∀ a ∈ agents, a.createOk = true) →
      (runTriggerLoop agents td).2 = none ∧
      (runTriggerLoop agents td).1.length = agents.length := by
  intro agents
  induction agents with
  | nil => intro _; exact ⟨rfl, rfl⟩
  | cons a rest ih =>
    intro h
    have ha := h a (List.mem_cons_self a rest)
    have hrest := ih (fun x hx => h x (List.mem_cons_of_mem a hx))
    simp [runTriggerLoop, ha, hrest.1, hrest.2]

/-- **C8, counterexample**: with two eligible agent members of the same
SmartSpace, a rejected `prisma.run.create` for the first member aborts the
coordinator loop: no run is created for the second member and the error
propagates out of the coordinator instead of being caught. -/
theorem C8_counterexample :
    triggerAgentsInSmartSpaceWithOutcomes
      [{ entity := { id := 1, type := "agent", agentId := some 11 }, createOk := false, startOk := true },
       { entity := { id := 2, type := "agent", agentId := some 12 }, createOk := true, startOk := true }]
      99 0 5 = ([], some "run.create failed") := by
  rfl

/-- **C8 (amended)**: only failures *starting* a run (the background
`executeRun`, whose rejection is consumed by `.catch`) are isolated: when
every eligible member's `prisma.run.create` succeeds, the coordinator throws
nothing and creates one run per eligible member regardless of which starts
fail; a failure *creating* a run, by contrast, aborts the loop and prevents
the remaining members' runs (see the counterexample). -/
theorem C8_start_failures_isolated (members : List AgentOutcome)
    (sender td maxD : Nat) (h : ∀ a ∈ members, a.createOk = true) :
    (triggerAgentsInSmartSpaceWithOutcomes members sender td maxD).2 = none ∧
    (td ≥ maxD → (triggerAgentsInSmartSpaceWithOutcomes members sender td maxD).1 = []) ∧
    (¬ td ≥ maxD →
      (triggerAgentsInSmartSpaceWithOutcomes members sender td maxD).1.length =
        (members.filter (fun a =>
          a.entity.type == "agent" && a.entity.agentId.isSome && a.entity.id != sender)).length) := by
  have hfiltered : ∀ a ∈ members.filter (fun a =>
      a.entity.type == "agent" && a.entity.agentId.isSome && a.entity.id != sender),
      a.createOk = true := by
    intro a ha
    exact h a (List.mem_of_mem_filter ha)
  by_cases hd : td ≥ maxD
  · refine ⟨by simp [triggerAgentsInSmartSpaceWithOutcomes, hd], fun _ => by
      simp [triggerAgentsInSmartSpaceWithOutcomes, hd], fun hc => absurd hd hc⟩
  · have hloop := runTriggerLoop_all_create_ok td _ hfiltered
    refine ⟨?_, fun hc => absurd hc hd, fun _ => ?_⟩
    · simpa [triggerAgentsInSmartSpaceWithOutcomes, hd] using hloop.1
    · simpa [triggerAgentsInSmartSpaceWithOutcomes, hd] using hloop.2

theorem C8_start_failures_isolated_witness :
    (triggerAgentsInSmartSpaceWithOutcomes
      [{ entity := { id := 1, type := "agent", agentId := some 11 }, createOk := true, startOk := false },
       { entity := { id := 2, type := "agent", agentId := some 12 }, createOk := true, startOk := true }]
      99 0 5).2 = none := by
  exact (C8_start_failures_isolated _ 99 0 5 (by decide)).1

theorem toolResultUpsert_mem (rows : List ToolResultRow) (runId callId : Nat)
    (result src : String) (cid : Option Nat) :
    (toolResultUpsert rows runId callId result src cid).any
      (fun t => t.runId == runId && t.callId == callId) = true := by
  by_cases h : rows.any (fun t => t.runId == runId && t.callId == callId) = true
  · simp only [toolResultUpsert, if_pos h, List.any_map]
    rw [List.any_eq_true] at h ⊢
    obtain ⟨t, ht, hp⟩ := h
    refine ⟨t, ht, ?_⟩
    simp only [Function.comp_apply, if_pos hp]
    simp only [Bool.and_eq_true, beq_iff_eq] at hp ⊢
    exact hp
  · simp only [toolResultUpsert, if_neg h, List.any_append]
    simp

/-- **C9**: `submitToolResult` is not atomic on error.  When the run does not
exist it throws `Run not found` before changing anything; when the run exists
but no ToolCall row has the `(runId, callId)` key, the `toolCall.update`
throws only after the ToolResult row has already been upserted, leaving a
ToolResult without a completed ToolCall. -/
theorem C9_submit_error_atomicity (db : GatewayDb) (runId callId : Nat)
    (result : String) (source : Option String) (clientId : Option Nat) (now : Nat) :
    (db.runs.find? (fun r => r.id == runId) = none →
      submitToolResult db runId callId result source clientId now = (db, some "Run not found")) ∧
    (∀ run, db.runs.find? (fun r => r.id == runId) = some run →
      db.toolCalls.any (fun c => c.runId == runId && c.callId == callId) = false →
      (submitToolResult db runId callId result source clientId now).2 =
        some "Record to update not found" ∧
      (submitToolResult db runId callId result source clientId now).1.toolResults.any
        (fun t => t.runId == runId && t.callId == callId) = true ∧
      (submitToolResult db runId callId result source clientId now).1.toolCalls =
        db.toolCalls) := by
  constructor
  · intro h
    simp [submitToolResult, h]
  · intro run hrun hcall
    refine ⟨?_, ?_, ?_⟩
    · simp [submitToolResult, hrun, hcall]
    · simp only [submitToolResult, hrun, hcall]
      simp [toolResultUpsert_mem]
    · simp [submitToolResult, hrun, hcall]

theorem C9_submit_error_atomicity_witness :
    submitToolResult (toolDb "dispatched") 9 5 "r" none none 0 =
      (toolDb "dispatched", some "Run not found") ∧
    (submitToolResult (toolDb "dispatched") 1 6 "r" none none 0).2 =
      some "Record to update not found" ∧
    (submitToolResult (toolDb "dispatched") 1 6 "r" none none 0).1.toolResults.any
      (fun t => t.runId == 1 && t.callId == 6) = true := by
  have h := C9_submit_error_atomicity (toolDb "dispatched") 9 5 "r" none none 0
  have h2 := C9_submit_error_atomicity (toolDb "dispatched") 1 6 "r" none none 0
  have h2e := h2.2 { id := 1, smartSpaceId := 2, agentEntityId := 3, triggeredById := none }
    (by decide) (by decide)
  exact ⟨h.1 (by decide), h2e.1, h2e.2.1⟩

/-- **C3, counterexample**: submitting the same `(runId 1, callId 5)` result
twice, for a tool call with execution target `client`, invokes the background
`executeRun` resumption on both submissions — twice, not at most once — and
`submitToolResult` never reads the call's status before re-triggering. -/
theorem C3_counterexample :
    ((submitToolResult (submitToolResult (toolDb "dispatched") 1 5 "a" none none 0).1
      1 5 "b" none none 1).1.resumeTriggers).length = 2 := by
  rfl

/-- **C3 (amended)**: submitting the same `(runId, callId)` result twice
leaves exactly one ToolResult row — the second submission overwrites the
stored result — but resumption of the run is triggered on *every* submission
whose tool call has a non-`server` execution target: `submitToolResult`
consults only the call's `executionTarget`, never its status, so the second
submission (the call being already `completed`) invokes `executeRun` again. -/
theorem C3_idempotent_row_double_resume (r1 r2 : String) (n1 n2 : Nat) :
    (submitToolResult (toolDb "dispatched") 1 5 r1 none none n1).2 = none ∧
    (submitToolResult (toolDb "dispatched") 1 5 r1 none none n1).1.toolResults =
      [{ runId := 1, callId := 5, result := r1, source := "server", clientId := none }] ∧
    (submitToolResult (toolDb "dispatched") 1 5 r1 none none n1).1.resumeTriggers = [1] ∧
    ((submitToolResult (toolDb "dispatched") 1 5 r1 none none n1).1.toolCalls.map
      (fun c => c.status)) = ["completed"] ∧
    (submitToolResult (submitToolResult (toolDb "dispatched") 1 5 r1 none none n1).1
      1 5 r2 none none n2).2 = none ∧
    (submitToolResult (submitToolResult (toolDb "dispatched") 1 5 r1 none none n1).1
      1 5 r2 none none n2).1.toolResults =
      [{ runId := 1, callId := 5, result := r2, source := "server", clientId := none }] ∧
    (submitToolResult (submitToolResult (toolDb "dispatched") 1 5 r1 none none n1).1
      1 5 r2 none none n2).1.resumeTriggers = [1, 1] := by
  refine ⟨rfl, rfl, rfl, rfl, rfl, rfl, rfl⟩

theorem xreadAfter_eq (n a : Nat) (h : a ≤ n) :
    xreadAfter n a = List.range' (a + 1) (n - a) := by
  unfold xreadAfter
  have happ : List.range' 1 a ++ List.range' (a + 1) (n - a) = List.range' 1 n := by
    have hr := List.range'_append 1 a (n - a) 1
    have h1 : 1 + 1 * a = a + 1 := by omega
    have h2 : n - a + a = n := by omega
    rw [h1, h2] at hr
    exact hr
  rw [← happ, List.filter_append]
  have hleft : (List.range' 1 a).filter (fun i => decide (a < i)) = [] := by
    rw [List.filter_eq_nil_iff]
    intro i hi
    have := List.mem_range'_1.mp hi
    simp only [decide_eq_true_eq]
    omega
  have hright : (List.range' (a + 1) (n - a)).filter (fun i => decide (a < i)) =
      List.range' (a + 1) (n - a) := by
    rw [List.filter_eq_self]
    intro i hi
    have := List.mem_range'_1.mp hi
    simp only [decide_eq_true_eq]
    omega
  rw [hleft, hright, List.nil_append]

theorem range'_getLast?_succ (s k : Nat) :
    (List.range' s (k + 1)).getLast? = some (s + k) := by
  have hc : List.range' s (k + 1) = List.range' s k ++ [s + 1 * k] :=
    List.range'_concat s k
  have he : s + 1 * k = s + k := by omega
  rw [he] at hc
  rw [hc, List.getLast?_concat]

theorem get?_append_singleton {A : Type} (l : List A) (a : A) :
    (l ++ [a]).get? l.length = some a := by
  induction l with
  | nil => rfl
  | cons x xs ih => simp

theorem set_append_singleton {A : Type} (l : List A) (a b : A) :
    (l ++ [a]).set l.length b = l ++ [b] := by
  induction l with
  | nil => rfl
  | cons x xs ih => simp [List.set, ih]

theorem subStep_publish_resolve (st : SubscriberState) :
    subStep (subStep st .publish) (.resolve st.handlers.length) =
      { streamLen := st.streamLen + 1
        lastSeen := (xreadAfter (st.streamLen + 1) st.lastSeen).getLast?.getD st.lastSeen
        delivered := st.delivered ++ xreadAfter (st.streamLen + 1) st.lastSeen
        handlers := st.handlers ++ [{ cursor := st.lastSeen, done := true }] } := by
  show subStep
      { st with
        streamLen := st.streamLen + 1
        handlers := st.handlers ++ [{ cursor := st.lastSeen, done := false }] }
      (.resolve st.handlers.length) = _
  simp only [subStep, get?_append_singleton, set_append_singleton]
  simp

theorem runSched_serialized (k : Nat) :
    ∀ st : SubscriberState, st.lastSeen ≤ st.streamLen →
      (runSched st (serializedSched st.handlers.length k)).delivered =
        st.delivered ++
          (if k = 0 then []
           else List.range' (st.lastSeen + 1) (st.streamLen + k - st.lastSeen)) := by
  induction k with
  | zero =>
    intro st _
    simp [serializedSched, runSched]
  | succ k ih =>
    intro st h
    have hbatch : xreadAfter (st.streamLen + 1) st.lastSeen =
        List.range' (st.lastSeen + 1) (st.streamLen + 1 - st.lastSeen) :=
      xreadAfter_eq _ _ (by omega)
    have hlastb : (xreadAfter (st.streamLen + 1) st.lastSeen).getLast?.getD st.lastSeen =
        st.streamLen + 1 := by
      rw [hbatch]
      have hpos : st.streamLen + 1 - st.lastSeen = (st.streamLen - st.lastSeen) + 1 := by
        omega
      rw [hpos, range'_getLast?_succ, Option.getD_some]
      omega
    have hfold : runSched st (serializedSched st.handlers.length (k + 1)) =
        runSched (subStep (subStep st .publish) (.resolve st.handlers.length))
          (serializedSched (st.handlers.length + 1) k) := by
      simp [serializedSched, runSched]
    rw [hfold, subStep_publish_resolve st]
    have hst2 := ih
      { streamLen := st.streamLen + 1
        lastSeen := (xreadAfter (st.streamLen + 1) st.lastSeen).getLast?.getD st.lastSeen
        delivered := st.delivered ++ xreadAfter (st.streamLen + 1) st.lastSeen
        handlers := st.handlers ++ [{ cursor := st.lastSeen, done := true }] }
      (by simp only [hlastb]; omega)
    simp only [List.length_append, List.length_cons, List.length_nil] at hst2
    rw [hst2]
    rw [hlastb, hbatch]
    by_cases hk : k = 0
    · subst hk
      simp
    · simp only [if_neg hk, if_neg (Nat.succ_ne_zero k)]
      have h1 : st.streamLen + 1 + k - (st.streamLen + 1) = k := by omega
      rw [h1, List.append_assoc]
      have hr := List.range'_append (st.lastSeen + 1) (st.streamLen + 1 - st.lastSeen) k 1
      have h2 : st.lastSeen + 1 + 1 * (st.streamLen + 1 - st.lastSeen) =
          st.streamLen + 1 + 1 := by omega
      have h3 : k + (st.streamLen + 1 - st.lastSeen) =
          st.streamLen + (k + 1) - st.lastSeen := by omega
      rw [h2, h3] at hr
      rw [hr]

/-- **C2, counterexample**: two concrete subscriber traces refute the claim.
Loss: a subscriber reconnecting with cursor `K = 0` whose replay read sees
an empty stream, after which one event is published before the live
subscription activates and nothing further is ever published — the stream
tail is event 1, yet nothing is delivered.  Duplication: a caught-up
subscriber for which two events are published back to back, so both
notification callbacks capture `lastSeenId = 0` before either awaited
`xread` resolves — entries 1 and 2 are each delivered twice, out of order. -/
theorem C2_counterexample :
    (runSched (subscriberAfterConnect 0 0 1) []).delivered = [] ∧
    (runSched (subscriberAfterConnect 0 0 1) []).streamLen = 1 ∧
    (runSched (subscriberAfterConnect 0 0 0)
      [.publish, .publish, .resolve 0, .resolve 1]).delivered = [1, 2, 1, 2] := by
  refine ⟨rfl, rfl, rfl⟩

/-- **C2 (amended)**: the route performs durable replay first and activates
the notification subscription only afterwards, and delivery is exactly-once
and in order only under a serialized notification schedule.  When each
notification's `xread` resolves before the next notification arrives, a
subscriber resuming from cursor `K` receives exactly `K+1..n1` (the replay
snapshot) if nothing is published after activation, and exactly `K+1..tail`
— including the events published between replay and activation — once at
least one event is published after activation, with no gap or duplicate.
Events published between the replay read and the activation of the live
subscription are delivered only upon such a later notification, and two
notification callbacks invoked before either's awaited `xread` resolves both
read the stale `lastSeenId` and deliver the same entries twice. -/
theorem C2_replay_live_stitching (K n1 n2 k : Nat) (h1 : K ≤ n1) (h2 : n1 ≤ n2) :
    (k = 0 → (runSched (subscriberAfterConnect K n1 n2) (serializedSched 0 k)).delivered =
      List.range' (K + 1) (n1 - K)) ∧
    (k ≠ 0 → (runSched (subscriberAfterConnect K n1 n2) (serializedSched 0 k)).delivered =
      List.range' (K + 1) (n2 + k - K)) ∧
    ((runSched (subscriberAfterConnect K n1 n2) (serializedSched 0 k)).delivered).Nodup ∧
    (runSched (subscriberAfterConnect 0 0 0)
      [.publish, .publish, .resolve 0, .resolve 1]).delivered = [1, 2, 1, 2] := by
  have hreplay : xreadAfter n1 K = List.range' (K + 1) (n1 - K) := xreadAfter_eq n1 K h1
  have hlast : (List.range' (K + 1) (n1 - K)).getLast?.getD K = n1 := by
    by_cases hK : n1 = K
    · subst hK
      simp
    · have hpos : n1 - K = (n1 - K - 1) + 1 := by omega
      rw [hpos, range'_getLast?_succ, Option.getD_some]
      omega
  have hconn : subscriberAfterConnect K n1 n2 =
      { streamLen := n2, lastSeen := n1, delivered := List.range' (K + 1) (n1 - K),
        handlers := [] } := by
    simp only [subscriberAfterConnect, hreplay, hlast]
  have hser := runSched_serialized k
    { streamLen := n2, lastSeen := n1, delivered := List.range' (K + 1) (n1 - K),
      handlers := [] } (by simpa using h2)
  simp only [List.length_nil] at hser
  have hzero : k = 0 →
      (runSched (subscriberAfterConnect K n1 n2) (serializedSched 0 k)).delivered =
        List.range' (K + 1) (n1 - K) := by
    intro hk
    rw [hconn, hser, if_pos hk, List.append_nil]
  have hstitch : k ≠ 0 →
      (runSched (subscriberAfterConnect K n1 n2) (serializedSched 0 k)).delivered =
        List.range' (K + 1) (n2 + k - K) := by
    intro hk
    rw [hconn, hser, if_neg hk]
    have hr := List.range'_append (K + 1) (n1 - K) (n2 + k - n1) 1
    have ha : K + 1 + 1 * (n1 - K) = n1 + 1 := by omega
    have hb : n2 + k - n1 + (n1 - K) = n2 + k - K := by omega
    rw [ha, hb] at hr
    exact hr
  refine ⟨hzero, hstitch, ?_, rfl⟩
  by_cases hk : k = 0
  · rw [hzero hk]
    exact List.nodup_range' _ _
  · rw [hstitch hk]
    exact List.nodup_range' _ _

theorem C2_replay_live_stitching_witness :
    (runSched (subscriberAfterConnect 2 4 6) (serializedSched 0 3)).delivered =
      List.range' 3 7 := by
  exact (C2_replay_live_stitching 2 4 6 3 (by decide) (by decide)).2.1 (by decide)

/-- **C10**: `dispatchToolCallToClient` always appends exactly one
`tool.call.request` entry to the target client's durable inbox stream and
touches no other client's inbox; the live socket push happens exactly when a
connection for that client is registered, so an offline client still finds
the dispatched call in its inbox. -/
theorem C10_dispatch_always_durable (st : WsGatewayState) (clientId : Nat)
    (toolCall : ToolCallRequest) :
    (dispatchToolCallToClient st clientId toolCall).inboxes clientId =
      st.inboxes clientId ++ [{ type := "tool.call.request", payload := toolCall }] ∧
    (∀ c, c ≠ clientId →
      (dispatchToolCallToClient st clientId toolCall).inboxes c = st.inboxes c) ∧
    (st.connections.contains clientId = false →
      (dispatchToolCallToClient st clientId toolCall).liveMessages = st.liveMessages) ∧
    (st.connections.contains clientId = true →
      (dispatchToolCallToClient st clientId toolCall).liveMessages =
        st.liveMessages ++ [(clientId, "tool.call.request")]) := by
  refine ⟨?_, ?_, ?_, ?_⟩
  · by_cases h : clientId ∈ st.connections <;>
      simp [dispatchToolCallToClient, h]
  · intro c hc
    by_cases h : clientId ∈ st.connections <;>
      simp [dispatchToolCallToClient, h, hc]
  · intro h
    have hm : clientId ∉ st.connections := by
      simpa using h
    simp [dispatchToolCallToClient, hm]
  · intro h
    have hm : clientId ∈ st.connections := by
      simpa using h
    simp [dispatchToolCallToClient, hm]

theorem C10_dispatch_always_durable_witness :
    (dispatchToolCallToClient
      { connections := [], liveMessages := [], inboxes := fun _ => [] } 4
      { runId := 1, callId := 5, toolName := "t" }).inboxes 4 =
      [{ type := "tool.call.request", payload := { runId := 1, callId := 5, toolName := "t" } }] ∧
    (dispatchToolCallToClient
      { connections := [], liveMessages := [], inboxes := fun _ => [] } 4
      { runId := 1, callId := 5, toolName := "t" }).liveMessages = [] := by
  have h := C10_dispatch_always_durable
    { connections := [], liveMessages := [], inboxes := fun _ => [] } 4
    { runId := 1, callId := 5, toolName := "t" }
  exact ⟨h.1, h.2.2.1 rfl⟩

end Hsafa
